import Mathlib

/-!
Verification of the service-container repository (`src/container.ts`,
`src/types/ServiceOptions.ts`) against its natural-language specification.

The TypeScript code is shallowly embedded below.  JavaScript runtime values
are modelled by the inductive `Value`; object identity is modelled by a
fresh allocation counter threaded through every `new` expression, so that
two objects created by distinct `new` evaluations are distinct `Value`s.
A class constructor built by `new C(a, b, ...)` is modelled as
`Value.vobj freshId classId [a, b, ...]`, recording which constructor ran
and exactly which argument list it received (JavaScript `new C([x, y])`
passes one argument, the array, and is modelled as `[Value.varr [x, y]]`).

Caller-supplied callbacks (logging callbacks, initializer hooks) are opaque
caller code; the container only invokes them, so their invocations are
modelled as entries appended to an event log.  A disposer hook is modelled
by `Disposer`: its invocation is logged, and `throws = true` models a
disposer that throws synchronously (in the code the throw escapes the
promise executor).  Plain-function payloads (`isFunction`) are caller code
as well; their behaviour is a parameter `FnSem` of the semantics.

The filesystem side of `autoLoad` (reading the directory, filtering
`.js` / `!` files, dynamic `import`) is the Loader collaborator; `autoLoad`
is modelled from the point where the ordered list of default exports is in
hand (`ModuleExport`, where `invalid` stands for a falsy or non-object
default export).
-/

namespace Container

/-- JavaScript runtime values, abstracted to what the container code
inspects: `typeof v === "function"` holds exactly for `vfn`, and object
identity is the `allocId` of `vobj`. -/
inductive Value where
  | vnull
  | vnum (n : Int)
  | vstr (s : String)
  | varr (elems : List Value)
  | vfn (fnId : Nat)
  | vobj (allocId : Nat) (ctorId : Nat) (args : List Value)

/-- Model of `typeof v === "function"`. -/
def typeofFunction : Value → Bool
  | .vfn _ => true
  | _ => false

/-- A disposer hook: `id` identifies the callback for the call log, and
`throws` models a callback that throws synchronously when invoked. -/
structure Disposer where
  id : Nat
  throws : Bool

/-- The `logging` option of `ServiceOptions.options`: the string
`"standard"`, the string `"none"`, or a custom callback. -/
inductive LoggingOpt where
  | standard
  | noneOpt
  | custom (id : Nat)

/-- Decidable equality on `LoggingOpt`, used for the `!== "none"` test. -/
def LoggingOpt.isNone : Option LoggingOpt → Bool
  | some .noneOpt => true
  | _ => false

/-- The `options` object of a `ServiceOptions` value
(`src/types/ServiceOptions.ts`).  Absent fields are `none` / `false`;
`priority` and `upsert` are the auto-load-only extras of
`AutoLoadServiceOptions`. -/
structure Opts where
  inject : Option (List Value) := none
  disposer : Option Disposer := none
  initHook : Option Nat := none
  logging : Option LoggingOpt := none
  lazyLoad : Bool := false
  isFunction : Bool := false
  isInstance : Bool := false
  priority : Option Int := none
  upsert : Bool := false

/-- A service descriptor (`ServiceOptions` in the source): `name` is a
`Value` because the code has to check `typeof name === "string"` itself. -/
structure ServiceOptions where
  name : Value
  service : Value
  options : Option Opts := none

/-- What the `services` map stores per name (`NoNameServiceOptions`):
the lazy branch stores the whole descriptor (so `options` is the
descriptor's options), the eager branch stores `{ service: instance }`
with no `options` key at all. -/
structure Entry where
  service : Value
  options : Option Opts := none

/-- Opaque caller-callback invocations recorded by the container. -/
inductive Event where
  | stdLog (name : String)
  | customLog (fnId : Nat) (name : String)
  | initRun (fnId : Nat)

/-- The errors the container code can reject / throw with. -/
inductive Err where
  | invalidName
  | duplicate (name : String)
  | notRegistered (name : String)
  | notFound (name : String)
  | typeErr
  | custom (id : Nat)
  | construction (name : String) (cause : Err)
  | referenceErrorKey
  | invalidModule
  | duplicateAutoLoad (name : String)

/-- The mutable state of one `Container` object: the insertion-ordered
`services` map (JavaScript `Map` preserves insertion order), the object
allocation counter, the log of disposer invocations, and the log of other
callback invocations.  `hasLogger` models the truthiness of `this.logger`
(a dynamic property possibly copied in by the constructor). -/
structure ContainerState where
  services : List (String × Entry) := []
  allocCounter : Nat := 0
  disposerLog : List Nat := []
  events : List Event := []
  hasLogger : Bool := false

/-- Model of `Map.prototype.has`. -/
def mapHas (m : List (String × Entry)) (k : String) : Bool :=
  m.any (fun p => p.1 == k)

/-- Model of `Map.prototype.get`. -/
def mapGet (m : List (String × Entry)) (k : String) : Option Entry :=
  (m.find? (fun p => p.1 == k)).map (fun p => p.2)

/-- Model of `Map.prototype.set`: replace in place if the key is present,
append otherwise. -/
def mapSet (m : List (String × Entry)) (k : String) (v : Entry) :
    List (String × Entry) :=
  if mapHas m k then m.map (fun p => if p.1 == k then (k, v) else p)
  else m ++ [(k, v)]

/-- Model of `Map.prototype.delete`. -/
def mapDelete (m : List (String × Entry)) (k : String) :
    List (String × Entry) :=
  m.filter (fun p => p.1 != k)

/-- Truthiness of `service.options?.lazyLoad`. -/
def ServiceOptions.lazyLoadFlag (d : ServiceOptions) : Bool :=
  (d.options.map (fun o => o.lazyLoad)).getD false

/-- Truthiness of `service.options?.isFunction`. -/
def ServiceOptions.isFunctionFlag (d : ServiceOptions) : Bool :=
  (d.options.map (fun o => o.isFunction)).getD false

/-- Truthiness of `service.options?.isInstance`. -/
def ServiceOptions.isInstanceFlag (d : ServiceOptions) : Bool :=
  (d.options.map (fun o => o.isInstance)).getD false

/-- Truthiness of `module.options?.upsert`. -/
def ServiceOptions.upsertFlag (d : ServiceOptions) : Bool :=
  (d.options.map (fun o => o.upsert)).getD false

/-- Evaluation of `service.options?.inject || []` (an array, even empty,
is truthy, so only an absent `inject` falls back to `[]`). -/
def injectOrEmpty (d : ServiceOptions) : List Value :=
  (d.options.bind (fun o => o.inject)).getD []

/-- Evaluation of `serviceOptions.options?.inject ?? null` as the single
argument `resolve` passes to `new`. -/
def injectOrNull (options : Option Opts) : Value :=
  match options.bind (fun o => o.inject) with
  | some l => .varr l
  | none => .vnull

/-- The string content of a descriptor name known to be a string
(used only after the `typeof === "string"` check has passed). -/
def nameString (d : ServiceOptions) : String :=
  match d.name with
  | .vstr s => s
  | _ => ""

/-- Evaluation of `b.options?.priority || 0` (`0` and an absent priority
both yield `0`). -/
def effPriority (d : ServiceOptions) : Int :=
  (d.options.bind (fun o => o.priority)).getD 0

/-- Semantics of calling caller-supplied plain functions (`isFunction`
payloads): given the function id, the argument list and the allocation
counter, produce the returned value and new counter, or the thrown error.
This is a parameter because plain-function bodies are caller code. -/
structure FnSem where
  call : Nat → List Value → Nat → Except Err (Value × Nat)

/-- Semantics of `new v(args)`: any function value can be constructed,
yielding a fresh object; `new` on a non-function throws a TypeError. -/
def constructValue (v : Value) (args : List Value) (alloc : Nat) :
    Except Err (Value × Nat) :=
  match v with
  | .vfn fnId => .ok (.vobj alloc fnId args, alloc + 1)
  | _ => .error .typeErr

/-- Semantics of `v(args)` for a caller-supplied function value. -/
def callValue (fs : FnSem) (v : Value) (args : List Value) (alloc : Nat) :
    Except Err (Value × Nat) :=
  match v with
  | .vfn fnId => fs.call fnId args alloc
  | _ => .error .typeErr

/-- Model of `Container.createServiceInstance`: dispatch on the
`isFunction` / `isInstance` flags, defaulting to class construction with
`injectArgs` spread positionally; any exception is wrapped into an error
naming the service (`Error creating service: ...`). -/
def createServiceInstance (fs : FnSem) (d : ServiceOptions) (alloc : Nat) :
    Except Err (Value × Nat) :=
  let injectArgs := injectOrEmpty d
  let r :=
    if d.isFunctionFlag then callValue fs d.service injectArgs alloc
    else if d.isInstanceFlag then .ok (d.service, alloc)
    else constructValue d.service injectArgs alloc
  match r with
  | .ok x => .ok x
  | .error e => .error (.construction (nameString d) e)

/-- The tail of one `register` iteration after the entry has been stored:
the logging branch (`options?.logging !== "none" && !this.logger`, custom
callback or standard notice) followed by the initializer hook.  Both only
invoke caller callbacks, recorded in the event log. -/
def logAndInit (d : ServiceOptions) (n : String) (st1 : ContainerState) :
    ContainerState :=
  let st2 :=
    if !LoggingOpt.isNone (d.options.bind (fun o => o.logging))
        && !st1.hasLogger then
      match d.options.bind (fun o => o.logging) with
      | some (.custom f) =>
        { st1 with events := st1.events ++ [.customLog f n] }
      | _ => { st1 with events := st1.events ++ [.stdLog n] }
    else st1
  match d.options.bind (fun o => o.initHook) with
  | some f => { st2 with events := st2.events ++ [.initRun f] }
  | none => st2

/-- One iteration of the loop in `Container.register`: the
`typeof name === "string"` check, the duplicate check, storing either the
whole descriptor (lazy) or `{ service: createServiceInstance(service) }`
(eager), then the logging branch and the initializer hook.  On failure the
promise rejects with the state as mutated so far. -/
def registerStep (fs : FnSem) (st : ContainerState) (d : ServiceOptions) :
    ContainerState × Option Err :=
  match d.name with
  | .vstr n =>
    if mapHas st.services n then (st, some (.duplicate n))
    else
      let stored : Except Err ContainerState :=
        if d.lazyLoadFlag then
          .ok { st with
            services := mapSet st.services n ⟨d.service, d.options⟩ }
        else
          match createServiceInstance fs d st.allocCounter with
          | .ok (v, alloc2) =>
            .ok { st with
              services := mapSet st.services n ⟨v, none⟩
              allocCounter := alloc2 }
          | .error e => .error e
      match stored with
      | .error e => (st, some e)
      | .ok st1 => (logAndInit d n st1, none)
  | _ => (st, some .invalidName)

/-- Model of `Container.register`: process the descriptors in order; the
first failure rejects, keeping the mutations already made (the batch is
not transactional). -/
def registerLoop (fs : FnSem) :
    ContainerState → List ServiceOptions → ContainerState × Option Err
  | st, [] => (st, none)
  | st, d :: ds =>
    match registerStep fs st d with
    | (st1, none) => registerLoop fs st1 ds
    | (st1, some e) => (st1, some e)

/-- Model of `Container.resolve`: look the entry up; if the stored
`service` is a function (`typeof === "function"`), evaluate
`new service(options?.inject ?? null)` — `new` with the single argument —
otherwise return the stored value as is. -/
def resolve (st : ContainerState) (name : String) :
    ContainerState × Except Err Value :=
  match mapGet st.services name with
  | none => (st, .error (.notRegistered name))
  | some e =>
    match e.service with
    | .vfn fnId =>
      ({ st with allocCounter := st.allocCounter + 1 },
        .ok (.vobj st.allocCounter fnId [injectOrNull e.options]))
    | v => (st, .ok v)

/-- Model of `Container.dispose`: look the entry up, invoke the disposer
hook if the entry carries one (a synchronous throw escapes the executor,
so the deletion below it never runs), then delete the name. -/
def dispose (st : ContainerState) (name : String) :
    ContainerState × Option Err :=
  match mapGet st.services name with
  | none => (st, some (.notFound name))
  | some e =>
    match e.options.bind (fun o => o.disposer) with
    | some dsp =>
      let st1 := { st with disposerLog := st.disposerLog ++ [dsp.id] }
      if dsp.throws then (st1, some (.custom dsp.id))
      else ({ st1 with services := mapDelete st1.services name }, none)
    | none => ({ st with services := mapDelete st.services name }, none)

/-- Model of `Container.upsert`: when the name is absent, plain
`register([service])`; when it is present the code evaluates
`await this.dispose(key)` where `key` is an unbound identifier, so a
ReferenceError is thrown before anything is disposed or registered. -/
def upsert (fs : FnSem) (st : ContainerState) (d : ServiceOptions) :
    ContainerState × Option Err :=
  let present :=
    match d.name with
    | .vstr n => mapHas st.services n
    | _ => false
  if present then (st, some .referenceErrorKey)
  else registerLoop fs st [d]

/-- A default export obtained by the Loader for one discovered file:
`invalid` stands for a falsy or non-object export. -/
inductive ModuleExport where
  | invalid
  | valid (d : ServiceOptions)

/-- Stable insertion of a module before the first element of strictly
smaller effective priority. -/
def insertDesc (x : ServiceOptions) :
    List ServiceOptions → List ServiceOptions
  | [] => [x]
  | y :: ys =>
    if effPriority x < effPriority y then y :: insertDesc x ys
    else x :: y :: ys

/-- Model of `modules.sort((a, b) => (b.options?.priority || 0) -
(a.options?.priority || 0))`: `Array.prototype.sort` is stable (ES2019),
and a stable sort by a total preorder has a unique result, so this stable
insertion sort computes it. -/
def sortDesc : List ServiceOptions → List ServiceOptions
  | [] => []
  | x :: xs => insertDesc x (sortDesc xs)

/-- The scan loop of `Container.autoLoad`: validate each export, then the
conflict check against the live registry — a duplicate with the `upsert`
option is disposed immediately (during the scan), a duplicate without it
throws — and accumulate the accepted descriptors in discovery order. -/
def autoLoadScan :
    ContainerState → List ModuleExport → List ServiceOptions →
      ContainerState × Except Err (List ServiceOptions)
  | st, [], acc => (st, .ok acc)
  | st, .invalid :: _, _ => (st, .error .invalidModule)
  | st, .valid d :: ms, acc =>
    match d.name with
    | .vstr n =>
      if mapHas st.services n then
        if d.upsertFlag then
          match dispose st n with
          | (st1, none) => autoLoadScan st1 ms (acc ++ [d])
          | (st1, some e) => (st1, .error e)
        else (st, .error (.duplicateAutoLoad n))
      else autoLoadScan st ms (acc ++ [d])
    | _ => autoLoadScan st ms (acc ++ [d])

/-- Model of `Container.autoLoad` from the point where the Loader has
produced the ordered list of default exports: scan (validation and
conflict resolution), sort by priority descending, then one batch
`register` call. -/
def autoLoadProcess (fs : FnSem) (st : ContainerState)
    (ms : List ModuleExport) : ContainerState × Option Err :=
  match autoLoadScan st ms [] with
  | (st1, .error e) => (st1, some e)
  | (st1, .ok mods) => registerLoop fs st1 (sortDesc mods)

/-- The process-wide `Container.instance` static field. -/
structure GlobalState where
  currentInstance : Option Nat := none

/-- Model of the `Container` constructor's static side effect: it
unconditionally executes `Container.instance = this`, whatever container
was tracked before; `newId` identifies the newly constructed container. -/
def constructContainer (_g : GlobalState) (newId : Nat) : GlobalState :=
  { currentInstance := some newId }

/-- Model of `Container.getInstance`. -/
def getInstance (g : GlobalState) : Option Nat :=
  g.currentInstance

/-! Concrete fixtures used to evaluate the model at explicit inputs. -/

/-- A concrete plain-function semantics: every caller function returns
`null` and allocates nothing. -/
def fsUnit : FnSem :=
  ⟨fun _ _ alloc => .ok (.vnull, alloc)⟩

/-- A lazy descriptor named `"a"` carrying a disposer hook (id 5). -/
def dA : ServiceOptions :=
  { name := .vstr "a", service := .vfn 0,
    options := some { lazyLoad := true, disposer := some ⟨5, false⟩ } }

/-- A replacement descriptor for the name `"a"`. -/
def dA2 : ServiceOptions :=
  { name := .vstr "a", service := .vfn 1 }

/-- The container state holding just `dA`. -/
def stA : ContainerState :=
  (registerLoop fsUnit {} [dA]).1

/-- A lazy class-kind descriptor named `"s"` with `inject: [1, 2]`. -/
def dS : ServiceOptions :=
  { name := .vstr "s", service := .vfn 3,
    options := some { lazyLoad := true, inject := some [.vnum 1, .vnum 2] } }

/-- The container state holding just `dS` (registered lazily). -/
def stS : ContainerState :=
  (registerStep fsUnit {} dS).1

/-- A lazy function-kind descriptor (`isFunction: true`) named `"g"`. -/
def dG : ServiceOptions :=
  { name := .vstr "g", service := .vfn 6,
    options := some { lazyLoad := true, isFunction := true } }

/-- The container state holding just `dG`. -/
def stG : ContainerState :=
  (registerStep fsUnit {} dG).1

/-- An eager descriptor named `"f"` whose pre-built instance
(`isInstance: true`) is itself a function value. -/
def dF : ServiceOptions :=
  { name := .vstr "f", service := .vfn 4,
    options := some { isInstance := true } }

/-- The container state holding just `dF`. -/
def stF : ContainerState :=
  (registerLoop fsUnit {} [dF]).1

/-- An eager descriptor named `"d"` carrying a disposer hook (id 9),
whose pre-built instance is the number 1. -/
def dD : ServiceOptions :=
  { name := .vstr "d", service := .vnum 1,
    options := some { isInstance := true, disposer := some ⟨9, false⟩ } }

/-- The container state holding just `dD` (registered eagerly). -/
def stD : ContainerState :=
  (registerStep fsUnit {} dD).1

/-- A lazy descriptor named `"t"` whose disposer hook (id 3) throws. -/
def dT : ServiceOptions :=
  { name := .vstr "t", service := .vfn 0,
    options := some { lazyLoad := true, disposer := some ⟨3, true⟩ } }

/-- The container state holding just `dT`. -/
def stT : ContainerState :=
  (registerLoop fsUnit {} [dT]).1

/-- A descriptor whose name is the empty string. -/
def dE : ServiceOptions :=
  { name := .vstr "", service := .vnum 0,
    options := some { isInstance := true } }

/-- A descriptor whose name is the number 3 rather than a string. -/
def dN : ServiceOptions :=
  { name := .vnum 3, service := .vnum 0,
    options := some { isInstance := true } }

/-- A lazy auto-load descriptor with a given name and priority. -/
def mx (nm : String) (p : Int) : ServiceOptions :=
  { name := .vstr nm, service := .vfn 0,
    options := some { lazyLoad := true, priority := some p } }

/-- A discovery batch with priorities `[1, 5, 3]`. -/
def msX : List ModuleExport :=
  [.valid (mx "x" 1), .valid (mx "y" 5), .valid (mx "z" 3)]

/-- The accepted descriptors of `msX` in discovery order. -/
def modsX : List ServiceOptions :=
  [mx "x" 1, mx "y" 5, mx "z" 3]

/-- The state after auto-loading `msX` into an empty container. -/
def stX2 : ContainerState :=
  (registerLoop fsUnit {} (sortDesc modsX)).1

/-- A lazy descriptor named `"b"` with no hooks. -/
def dB : ServiceOptions :=
  { name := .vstr "b", service := .vfn 7,
    options := some { lazyLoad := true } }

/-- A container state holding `"a"` and `"b"`. -/
def stAB : ContainerState :=
  (registerLoop fsUnit {} [dA, dB]).1

/-- An auto-load module duplicating `"a"` with the `upsert` option. -/
def mUpA : ServiceOptions :=
  { name := .vstr "a", service := .vfn 8,
    options := some { lazyLoad := true, upsert := true } }

/-- An auto-load module duplicating `"b"` without the `upsert` option. -/
def mDupB : ServiceOptions :=
  { name := .vstr "b", service := .vfn 9,
    options := some { lazyLoad := true } }

/-- A fresh (non-duplicate) auto-load module named `"w"`. -/
def mW : ServiceOptions :=
  { name := .vstr "w", service := .vfn 10,
    options := some { lazyLoad := true } }

end Container

namespace Container

/-! Helper lemmas about the embedded operations. -/

/-- The logging branch and the initializer hook only append to the event
log; the services map is untouched. -/
theorem logAndInit_services (d : ServiceOptions) (n : String)
    (st : ContainerState) : (logAndInit d n st).services = st.services := by
  simp only [logAndInit]
  repeat' split
  all_goals rfl

/-- The logging branch and the initializer hook leave the allocation
counter unchanged. -/
theorem logAndInit_allocCounter (d : ServiceOptions) (n : String)
    (st : ContainerState) :
    (logAndInit d n st).allocCounter = st.allocCounter := by
  simp only [logAndInit]
  repeat' split
  all_goals rfl

/-- The logging branch and the initializer hook never fire disposers. -/
theorem logAndInit_disposerLog (d : ServiceOptions) (n : String)
    (st : ContainerState) :
    (logAndInit d n st).disposerLog = st.disposerLog := by
  simp only [logAndInit]
  repeat' split
  all_goals rfl

/-- An absent key is found by no `find?` over the map. -/
theorem find?_eq_none_of_not_has (m : List (String × Entry)) (k : String)
    (h : mapHas m k = false) : m.find? (fun p => p.1 == k) = none := by
  rw [List.find?_eq_none]
  intro x hx
  unfold mapHas at h
  rw [List.any_eq_false] at h
  simp only [beq_iff_eq] at h ⊢
  obtain ⟨a, b⟩ := x
  exact h (a, b) hx

/-- Setting an absent key makes it retrievable with the given entry. -/
theorem mapGet_mapSet_new (m : List (String × Entry)) (k : String) (e : Entry)
    (h : mapHas m k = false) : mapGet (mapSet m k e) k = some e := by
  unfold mapSet
  rw [h]
  simp only [Bool.false_eq_true, if_false]
  unfold mapGet
  rw [List.find?_append, find?_eq_none_of_not_has m k h]
  simp [List.find?]

/-- Setting an absent key appends it to the insertion order. -/
theorem mapfst_mapSet_new (m : List (String × Entry)) (k : String) (e : Entry)
    (h : mapHas m k = false) :
    (mapSet m k e).map Prod.fst = m.map Prod.fst ++ [k] := by
  unfold mapSet
  rw [h]
  simp

/-- After deletion a key is absent. -/
theorem mapHas_mapDelete_self (m : List (String × Entry)) (k : String) :
    mapHas (mapDelete m k) k = false := by
  unfold mapHas mapDelete
  rw [List.any_eq_false]
  intro x hx
  rw [List.mem_filter] at hx
  simp_all [bne]

/-- A successful lazy `register` step stores the whole descriptor under
its name, having checked the name absent, and allocates nothing. -/
theorem registerStep_lazy_ok (fs : FnSem) (st st1 : ContainerState)
    (d : ServiceOptions) (n : String)
    (hn : d.name = .vstr n) (hlazy : d.lazyLoadFlag = true)
    (hreg : registerStep fs st d = (st1, none)) :
    mapHas st.services n = false
    ∧ st1.services = mapSet st.services n ⟨d.service, d.options⟩
    ∧ st1.allocCounter = st.allocCounter := by
  unfold registerStep at hreg
  rw [hn] at hreg
  by_cases hh : mapHas st.services n
  · simp [hh] at hreg
  · simp only [hh, Bool.false_eq_true, if_false, hlazy, if_true] at hreg
    rw [Prod.mk.injEq] at hreg
    refine ⟨by simp [hh], ?_, ?_⟩
    · rw [← hreg.1, logAndInit_services]
    · rw [← hreg.1, logAndInit_allocCounter]

/-- A successful eager `register` step stores the realized value with no
options, having checked the name absent. -/
theorem registerStep_eager_ok (fs : FnSem) (st st1 : ContainerState)
    (d : ServiceOptions) (n : String) (v : Value) (a2 : Nat)
    (hn : d.name = .vstr n) (hlazy : d.lazyLoadFlag = false)
    (hc : createServiceInstance fs d st.allocCounter = .ok (v, a2))
    (hreg : registerStep fs st d = (st1, none)) :
    mapHas st.services n = false
    ∧ st1.services = mapSet st.services n ⟨v, none⟩ := by
  unfold registerStep at hreg
  rw [hn] at hreg
  by_cases hh : mapHas st.services n
  · simp [hh] at hreg
  · simp only [hh, Bool.false_eq_true, if_false, hlazy, hc] at hreg
    rw [Prod.mk.injEq] at hreg
    refine ⟨by simp [hh], ?_⟩
    rw [← hreg.1, logAndInit_services]

/-- `resolve` never modifies the services map. -/
theorem resolve_services (st : ContainerState) (n : String) :
    (resolve st n).1.services = st.services := by
  unfold resolve
  cases h : mapGet st.services n with
  | none => rfl
  | some e =>
    obtain ⟨sv, opts⟩ := e
    cases sv <;> rfl

/-- A successful `register` step appends exactly its descriptor's name to
the registry insertion order. -/
theorem registerStep_names (fs : FnSem) (st st1 : ContainerState)
    (d : ServiceOptions)
    (hreg : registerStep fs st d = (st1, none)) :
    st1.services.map Prod.fst = st.services.map Prod.fst
      ++ [nameString d] := by
  unfold registerStep at hreg
  cases hn : d.name <;> rw [hn] at hreg
  case vstr n =>
    by_cases hh : mapHas st.services n
    · simp [hh] at hreg
    · cases hl : d.lazyLoadFlag
      · cases hc : createServiceInstance fs d st.allocCounter with
        | error e => simp [hh, hl, hc] at hreg
        | ok va =>
          obtain ⟨v, a2⟩ := va
          simp only [hh, Bool.false_eq_true, if_false, hl, hc] at hreg
          rw [Prod.mk.injEq] at hreg
          rw [← hreg.1, logAndInit_services]
          simp only []
          rw [mapfst_mapSet_new _ _ _ (by simp [hh])]
          simp [nameString, hn]
      · simp only [hh, Bool.false_eq_true, if_false, hl, if_true] at hreg
        rw [Prod.mk.injEq] at hreg
        rw [← hreg.1, logAndInit_services]
        simp only []
        rw [mapfst_mapSet_new _ _ _ (by simp [hh])]
        simp [nameString, hn]
  all_goals simp at hreg

/-- A successful batch `register` appends the batch's names to the
registry insertion order, in batch order. -/
theorem registerLoop_names (fs : FnSem) :
    ∀ (l : List ServiceOptions) (st st2 : ContainerState),
    registerLoop fs st l = (st2, none) →
    st2.services.map Prod.fst = st.services.map Prod.fst
      ++ l.map nameString := by
  intro l
  induction l with
  | nil =>
    intro st st2 h
    unfold registerLoop at h
    rw [Prod.mk.injEq] at h
    simp [← h.1]
  | cons d ds ih =>
    intro st st2 h
    unfold registerLoop at h
    cases hs : registerStep fs st d with
    | mk st1 oe =>
      rw [hs] at h
      cases oe with
      | none =>
        simp only [] at h
        have h1 := registerStep_names fs st st1 d hs
        have h2 := ih st1 st2 h
        rw [h2, h1]
        simp
      | some e => simp at h

/-- Membership in a stable insertion. -/
theorem mem_insertDesc {x z : ServiceOptions} :
    ∀ {l : List ServiceOptions}, z ∈ insertDesc x l → z = x ∨ z ∈ l := by
  intro l
  induction l with
  | nil =>
    intro h
    simp [insertDesc] at h
    exact Or.inl h
  | cons y ys ih =>
    intro h
    unfold insertDesc at h
    split at h
    · rcases List.mem_cons.mp h with h1 | h2
      · exact Or.inr (by simp [h1])
      · rcases ih h2 with h3 | h4
        · exact Or.inl h3
        · exact Or.inr (List.mem_cons_of_mem _ h4)
    · rcases List.mem_cons.mp h with h1 | h2
      · exact Or.inl h1
      · exact Or.inr h2

/-- Stable insertion preserves the descending-priority invariant. -/
theorem insertDesc_pairwise (x : ServiceOptions) :
    ∀ (l : List ServiceOptions),
    List.Pairwise (fun a b => effPriority b ≤ effPriority a) l →
    List.Pairwise (fun a b => effPriority b ≤ effPriority a)
      (insertDesc x l) := by
  intro l
  induction l with
  | nil =>
    intro _
    simp [insertDesc]
  | cons y ys ih =>
    intro hp
    rw [List.pairwise_cons] at hp
    unfold insertDesc
    split
    · rename_i hlt
      rw [List.pairwise_cons]
      constructor
      · intro z hz
        rcases mem_insertDesc hz with rfl | hzz
        · omega
        · exact hp.1 z hzz
      · exact ih hp.2
    · rename_i hge
      push_neg at hge
      rw [List.pairwise_cons]
      constructor
      · intro z hz
        rcases List.mem_cons.mp hz with rfl | hzz
        · exact hge
        · exact le_trans (hp.1 z hzz) hge
      · rw [List.pairwise_cons]
        exact hp

/-- The sort used by `autoLoad` orders its output by effective priority,
descending. -/
theorem sortDesc_pairwise (l : List ServiceOptions) :
    List.Pairwise (fun a b => effPriority b ≤ effPriority a)
      (sortDesc l) := by
  induction l with
  | nil => simp [sortDesc]
  | cons x xs ih => exact insertDesc_pairwise x (sortDesc xs) ih

/-- Stability of the insertion step: the subsequence of any fixed
priority is preserved. -/
theorem insertDesc_filter (x : ServiceOptions) (p : Int) :
    ∀ (l : List ServiceOptions),
    (insertDesc x l).filter (fun d => effPriority d == p)
      = (x :: l).filter (fun d => effPriority d == p) := by
  intro l
  induction l with
  | nil => rfl
  | cons y ys ih =>
    unfold insertDesc
    split
    · rename_i hlt
      by_cases hx : effPriority x = p <;> by_cases hy : effPriority y = p
      · exfalso
        omega
      · simp only [List.filter_cons, beq_iff_eq, hx, hy] at ih ⊢
        simp_all
      · simp only [List.filter_cons, beq_iff_eq, hx, hy] at ih ⊢
        simp_all
      · simp only [List.filter_cons, beq_iff_eq, hx, hy] at ih ⊢
        simp_all
    · rfl

/-- Stability of the sort used by `autoLoad`: for each priority value,
the elements carrying it keep their discovery order. -/
theorem sortDesc_filter (p : Int) :
    ∀ (l : List ServiceOptions),
    (sortDesc l).filter (fun d => effPriority d == p)
      = l.filter (fun d => effPriority d == p) := by
  intro l
  induction l with
  | nil => rfl
  | cons x xs ih =>
    unfold sortDesc
    rw [insertDesc_filter]
    simp only [List.filter_cons]
    rw [ih]

/-- When every module before the first unresolvable duplicate is valid
and conflict-free, the scan stops at that duplicate with the registry
untouched. -/
theorem autoLoadScan_dup (st : ContainerState) (ms2 : List ModuleExport)
    (d : ServiceOptions) (n : String)
    (hn : d.name = .vstr n) (hdup : mapHas st.services n = true)
    (hup : d.upsertFlag = false) :
    ∀ (ms1 : List ModuleExport),
    (∀ m ∈ ms1, ∃ d1, m = .valid d1 ∧
        ∀ s, d1.name = .vstr s → mapHas st.services s = false) →
    ∀ (acc : List ServiceOptions),
    autoLoadScan st (ms1 ++ .valid d :: ms2) acc
      = (st, .error (.duplicateAutoLoad n)) := by
  intro ms1
  induction ms1 with
  | nil =>
    intro _ acc
    simp only [List.nil_append]
    unfold autoLoadScan
    rw [hn]
    simp [hdup, hup]
  | cons m ms ih =>
    intro hclean acc
    obtain ⟨d1, rfl, hfree⟩ := hclean m (by simp)
    simp only [List.cons_append]
    cases hd1 : d1.name with
    | vstr s =>
      have hs := hfree s hd1
      unfold autoLoadScan
      rw [hd1]
      simp only [hs, Bool.false_eq_true, if_false]
      exact ih (fun m hm => hclean m (by simp [hm])) (acc ++ [d1])
    | vnull =>
      unfold autoLoadScan
      rw [hd1]
      exact ih (fun m hm => hclean m (by simp [hm])) (acc ++ [d1])
    | vnum k =>
      unfold autoLoadScan
      rw [hd1]
      exact ih (fun m hm => hclean m (by simp [hm])) (acc ++ [d1])
    | varr es =>
      unfold autoLoadScan
      rw [hd1]
      exact ih (fun m hm => hclean m (by simp [hm])) (acc ++ [d1])
    | vfn f =>
      unfold autoLoadScan
      rw [hd1]
      exact ih (fun m hm => hclean m (by simp [hm])) (acc ++ [d1])
    | vobj a c args =>
      unfold autoLoadScan
      rw [hd1]
      exact ih (fun m hm => hclean m (by simp [hm])) (acc ++ [d1])

end Container

namespace Container

/-! The claims. -/

/-- C1: the claim says `upsert` on an existing name disposes the old
entry (its disposer firing exactly once) and then registers the new
descriptor.  Evaluating the code at such an input shows what actually
happens: the existing-name branch evaluates the unbound identifier `key`
(`await this.dispose(key)`), so the call fails with a ReferenceError,
no disposer ever fires and the container is left unchanged. -/
theorem c1_upsert_existing_reference_error :
    mapHas stA.services "a" = true
    ∧ upsert fsUnit stA dA2 = (stA, some Err.referenceErrorKey)
    ∧ stA.disposerLog = [] :=
  ⟨rfl, rfl, rfl⟩

/-- C2: the claim says a lazy class-kind descriptor is instantiated by
`resolve` with the §4.3 strategy — `injectArgs` spread positionally, and
a function-kind payload invoked rather than constructed.  Evaluating the
code: `resolve` of the lazy class descriptor `dS` (inject `[1, 2]`) runs
`new C([1, 2])`, one argument holding the whole array, while the §4.3
strategy (`createServiceInstance`, used only on the eager path) runs
`new C(1, 2)`; and a lazy function-kind descriptor (`dG`) is constructed
by `resolve` (`new f(null)`) where §4.3 would have invoked it. -/
theorem c2_resolve_ignores_strategy :
    (resolve stS "s").2 = .ok (.vobj 0 3 [.varr [.vnum 1, .vnum 2]])
    ∧ createServiceInstance fsUnit dS 0
        = .ok (.vobj 0 3 [.vnum 1, .vnum 2], 1)
    ∧ [Value.varr [.vnum 1, .vnum 2]] ≠ [Value.vnum 1, Value.vnum 2]
    ∧ (resolve stG "g").2 = .ok (.vobj 0 6 [.vnull])
    ∧ createServiceInstance fsUnit dG 0 = .ok (.vnull, 0) :=
  ⟨rfl, rfl, by simp, rfl, rfl⟩

/-- C3, counterexample: the claim — every eagerly registered service
resolves to the identical stored value on every call — fails when the
realized value is itself a function: the eager `isInstance` descriptor
`dF` stores the function value `vfn 4`, and `resolve` (which
discriminates entries by `typeof === "function"`) constructs a fresh
object from it on each call, so two resolves differ. -/
theorem c3_counterexample_function_valued_eager :
    (registerLoop fsUnit {} [dF]).2 = none
    ∧ dF.lazyLoadFlag = false
    ∧ (resolve stF "f").2 = .ok (.vobj 0 4 [.vnull])
    ∧ (resolve (resolve stF "f").1 "f").2 = .ok (.vobj 1 4 [.vnull])
    ∧ Value.vobj 0 4 [.vnull] ≠ Value.vobj 1 4 [.vnull] :=
  ⟨rfl, rfl, rfl, rfl, by simp⟩

/-- C3, amended: for every eagerly registered service whose realized
value is not a function value, every `resolve` call returns the identical
realized value stored at registration (the state is not even touched, so
two successive resolves agree). -/
theorem c3_amended_eager_cached (fs : FnSem) (st st1 : ContainerState)
    (d : ServiceOptions) (n : String) (v : Value) (a2 : Nat)
    (hn : d.name = .vstr n)
    (hlazy : d.lazyLoadFlag = false)
    (hc : createServiceInstance fs d st.allocCounter = .ok (v, a2))
    (hv : typeofFunction v = false)
    (hreg : registerStep fs st d = (st1, none)) :
    resolve st1 n = (st1, .ok v)
    ∧ (resolve (resolve st1 n).1 n).2 = .ok v := by
  obtain ⟨hh, hserv⟩ :=
    registerStep_eager_ok fs st st1 d n v a2 hn hlazy hc hreg
  have hget : mapGet st1.services n = some ⟨v, none⟩ := by
    rw [hserv]
    exact mapGet_mapSet_new _ _ _ hh
  have hres : resolve st1 n = (st1, .ok v) := by
    unfold resolve
    rw [hget]
    cases v with
    | vfn f => simp [typeofFunction] at hv
    | vnull => rfl
    | vnum k => rfl
    | vstr s => rfl
    | varr es => rfl
    | vobj a c args => rfl
  refine ⟨hres, ?_⟩
  show (resolve (resolve st1 n).1 n).2 = .ok v
  rw [hres]
  show (resolve st1 n).2 = .ok v
  rw [hres]

/-- C3, witness: the amended theorem evaluated on the eagerly registered
instance descriptor `dD` (realized value: the number 1). -/
theorem c3_amended_witness :
    resolve stD "d" = (stD, .ok (.vnum 1))
    ∧ (resolve (resolve stD "d").1 "d").2 = .ok (.vnum 1) :=
  c3_amended_eager_cached fsUnit {} stD dD "d" (.vnum 1) 0 rfl rfl rfl rfl rfl

/-- C4: the claim says an eager registration stores the realized value
together with the descriptor's hooks so that a later dispose fires the
disposer.  Evaluating the code: registering `dD` (eager, with a disposer
hook) stores the entry `{ service := 1, options := none }` — the options
are dropped — so `dispose` removes the name without ever invoking the
disposer (the disposer log stays empty). -/
theorem c4_eager_entry_drops_hooks :
    (dD.options.bind (fun o => o.disposer)).isSome = true
    ∧ dD.lazyLoadFlag = false
    ∧ mapGet stD.services "d" = some ⟨.vnum 1, none⟩
    ∧ (dispose stD "d").2 = none
    ∧ (dispose stD "d").1.disposerLog = []
    ∧ mapHas (dispose stD "d").1.services "d" = false :=
  ⟨rfl, rfl, rfl, rfl, rfl, rfl⟩

/-- C5, counterexample: the claim — dispose removes the name even when
the disposer throws — fails: disposing `"t"`, whose disposer (id 3)
throws, rejects with the thrown error after firing the hook, and the
name is still registered afterwards. -/
theorem c5_counterexample_throwing_disposer :
    (dispose stT "t").2 = some (.custom 3)
    ∧ (dispose stT "t").1.disposerLog = [3]
    ∧ mapHas (dispose stT "t").1.services "t" = true :=
  ⟨rfl, rfl, rfl⟩

/-- C5, amended: for every registered name, dispose removes the name when
the entry's disposer hook is absent or returns without throwing; a
synchronously throwing disposer makes dispose reject with the name still
registered. -/
theorem c5_amended_dispose_removes (st : ContainerState) (n : String)
    (e : Entry)
    (hget : mapGet st.services n = some e)
    (hnothrow : Option.all (fun dsp => !dsp.throws)
        (e.options.bind (fun o => o.disposer)) = true) :
    (dispose st n).2 = none
    ∧ mapHas (dispose st n).1.services n = false := by
  simp only [dispose, hget]
  cases hd : e.options.bind (fun o => o.disposer) with
  | none =>
    simp only [hd]
    exact ⟨trivial, mapHas_mapDelete_self _ _⟩
  | some dsp =>
    rw [hd] at hnothrow
    simp only [Option.all] at hnothrow
    rw [Bool.not_eq_true'] at hnothrow
    simp only [hd, hnothrow, Bool.false_eq_true, if_false]
    exact ⟨trivial, mapHas_mapDelete_self _ _⟩

/-- C5, witness: the amended theorem evaluated on the registered lazy
descriptor `dA`, whose disposer does not throw. -/
theorem c5_amended_witness :
    (dispose stA "a").2 = none
    ∧ mapHas (dispose stA "a").1.services "a" = false :=
  c5_amended_dispose_removes stA "a"
    ⟨.vfn 0, some { lazyLoad := true, disposer := some ⟨5, false⟩ }⟩ rfl rfl

/-- C6, counterexample: the claim — register fails with InvalidNameError
when the name is the empty string — fails: the code only checks
`typeof name !== "string"`, the empty string passes, and the descriptor
`dE` (name `""`) registers successfully and is present afterwards. -/
theorem c6_counterexample_empty_name :
    (registerLoop fsUnit {} [dE]).2 = none
    ∧ mapHas (registerLoop fsUnit {} [dE]).1.services "" = true :=
  ⟨rfl, rfl⟩

/-- C6, amended: register fails with InvalidNameError for every
descriptor whose name is not a primitive string value, and such a
descriptor is never added — the state is returned unchanged. -/
theorem c6_amended_nonstring_rejected (fs : FnSem) (st : ContainerState)
    (d : ServiceOptions) (h : ∀ s, d.name ≠ Value.vstr s) :
    registerLoop fs st [d] = (st, some Err.invalidName) := by
  unfold registerLoop registerStep
  cases hn : d.name
  case vstr s => exact absurd hn (h s)
  all_goals rfl

/-- C6, witness: the amended theorem evaluated on the descriptor `dN`
whose name is the number 3. -/
theorem c6_amended_witness :
    registerLoop fsUnit {} [dN] = ({}, some Err.invalidName) :=
  c6_amended_nonstring_rejected fsUnit {} dN (fun s h => by simp [dN] at h)

/-- C7: when the auto-load scan accepts all discovered modules, the batch
actually registered is the stable descending-priority sort of the
accepted list: `autoLoad` hands `registerLoop` exactly `sortDesc mods`,
whose priorities are pairwise descending and whose elements of any fixed
priority keep their discovery order, and a successful registration
appends the names to the registry in exactly that order. -/
theorem c7_autoload_priority_order (fs : FnSem) (st st1 st2 : ContainerState)
    (ms : List ModuleExport) (mods : List ServiceOptions)
    (hscan : autoLoadScan st ms [] = (st1, .ok mods))
    (hreg : registerLoop fs st1 (sortDesc mods) = (st2, none)) :
    autoLoadProcess fs st ms = (st2, none)
    ∧ List.Pairwise (fun a b => effPriority b ≤ effPriority a)
        (sortDesc mods)
    ∧ (∀ p : Int, (sortDesc mods).filter (fun d => effPriority d == p)
        = mods.filter (fun d => effPriority d == p))
    ∧ st2.services.map Prod.fst
        = st1.services.map Prod.fst ++ (sortDesc mods).map nameString := by
  refine ⟨?_, sortDesc_pairwise mods, fun p => sortDesc_filter p mods,
    registerLoop_names fs (sortDesc mods) st1 st2 hreg⟩
  unfold autoLoadProcess
  rw [hscan]
  exact hreg

/-- C7, witness: the theorem evaluated on the discovery batch `msX` with
priorities `[1, 5, 3]`; the registry ends up holding `["y", "z", "x"]` —
the names in priority order `[5, 3, 1]`. -/
theorem c7_witness :
    (autoLoadProcess fsUnit {} msX = (stX2, none)
    ∧ List.Pairwise (fun a b => effPriority b ≤ effPriority a)
        (sortDesc modsX)
    ∧ (∀ p : Int, (sortDesc modsX).filter (fun d => effPriority d == p)
        = modsX.filter (fun d => effPriority d == p))
    ∧ stX2.services.map Prod.fst
        = ({} : ContainerState).services.map Prod.fst
            ++ (sortDesc modsX).map nameString)
    ∧ stX2.services.map Prod.fst = ["y", "z", "x"] :=
  ⟨c7_autoload_priority_order fsUnit {} {} stX2 msX modsX rfl rfl, rfl⟩

/-- C8, counterexample: the claim — a duplicate without the upsert option
aborts `autoLoad` with the registry unchanged — fails when an earlier
module of the batch is a duplicate with the upsert option: auto-loading
`[mUpA, mDupB]` into a registry holding `"a"` and `"b"` still fails on
`"b"` and registers nothing, but `"a"` was disposed during the scan, so
the registry did change. -/
theorem c8_counterexample_upsert_disposal :
    (autoLoadProcess fsUnit stAB [.valid mUpA, .valid mDupB]).2
      = some (.duplicateAutoLoad "b")
    ∧ mapHas stAB.services "a" = true
    ∧ mapHas (autoLoadProcess fsUnit stAB
        [.valid mUpA, .valid mDupB]).1.services "a" = false
    ∧ (autoLoadProcess fsUnit stAB
        [.valid mUpA, .valid mDupB]).1.services.map Prod.fst = ["b"] :=
  ⟨rfl, rfl, rfl, rfl⟩

/-- C8, amended: when a discovered module's name is already registered
and its upsert option is false, `autoLoad` fails with the duplicate
error and registers none of the batch; the registry is returned exactly
unchanged provided the earlier modules of the batch are valid and their
names not already registered (an earlier duplicate with upsert enabled
would have been disposed during the scan). -/
theorem c8_amended_duplicate_aborts (fs : FnSem) (st : ContainerState)
    (ms1 ms2 : List ModuleExport) (d : ServiceOptions) (n : String)
    (hclean : ∀ m ∈ ms1, ∃ d1, m = ModuleExport.valid d1 ∧
        ∀ s, d1.name = .vstr s → mapHas st.services s = false)
    (hn : d.name = .vstr n)
    (hdup : mapHas st.services n = true)
    (hup : d.upsertFlag = false) :
    autoLoadProcess fs st (ms1 ++ .valid d :: ms2)
      = (st, some (.duplicateAutoLoad n)) := by
  unfold autoLoadProcess
  rw [autoLoadScan_dup st ms2 d n hn hdup hup ms1 hclean []]

/-- C8, witness: the amended theorem evaluated on a batch whose first
module (`mW`) is fresh and whose second duplicates the registered name
`"b"` without the upsert option. -/
theorem c8_amended_witness :
    autoLoadProcess fsUnit stAB ([.valid mW] ++ .valid mDupB :: [])
      = (stAB, some (.duplicateAutoLoad "b")) :=
  c8_amended_duplicate_aborts fsUnit stAB [.valid mW] [] mDupB "b"
    (fun m hm => by
      simp only [List.mem_singleton] at hm
      subst hm
      exact ⟨mW, rfl, fun s hs => by
        simp only [mW] at hs
        injection hs with h2
        rw [← h2]
        rfl⟩)
    rfl rfl rfl

/-- C9: every registered lazy class-kind descriptor produces a fresh
instance on each `resolve` call — the two values returned by two
successive resolves are distinct objects (their allocation identities
differ). -/
theorem c9_lazy_class_fresh (fs : FnSem) (st st1 : ContainerState)
    (d : ServiceOptions) (n : String) (cid : Nat)
    (hn : d.name = .vstr n)
    (hlazy : d.lazyLoadFlag = true)
    (hclass : d.service = .vfn cid)
    (_hnf : d.isFunctionFlag = false)
    (_hni : d.isInstanceFlag = false)
    (hreg : registerStep fs st d = (st1, none)) :
    ∃ v1 v2, (resolve st1 n).2 = .ok v1
      ∧ (resolve (resolve st1 n).1 n).2 = .ok v2 ∧ v1 ≠ v2 := by
  obtain ⟨hh, hserv, _⟩ := registerStep_lazy_ok fs st st1 d n hn hlazy hreg
  have hget : mapGet st1.services n = some ⟨.vfn cid, d.options⟩ := by
    rw [hserv, ← hclass]
    exact mapGet_mapSet_new _ _ _ hh
  have hres1 : resolve st1 n
      = ({ st1 with allocCounter := st1.allocCounter + 1 },
          .ok (.vobj st1.allocCounter cid [injectOrNull d.options])) := by
    simp only [resolve, hget]
  have hget2 : mapGet ({ st1 with allocCounter := st1.allocCounter + 1 }
      : ContainerState).services n = some ⟨.vfn cid, d.options⟩ := hget
  have hres2 : resolve ({ st1 with allocCounter := st1.allocCounter + 1 }
      : ContainerState) n
      = ({ st1 with allocCounter := st1.allocCounter + 2 },
          .ok (.vobj (st1.allocCounter + 1) cid
            [injectOrNull d.options])) := by
    simp only [resolve, hget2]
  refine ⟨.vobj st1.allocCounter cid [injectOrNull d.options],
    .vobj (st1.allocCounter + 1) cid [injectOrNull d.options], ?_, ?_, ?_⟩
  · rw [hres1]
  · rw [hres1]
    show (resolve ({ st1 with allocCounter := st1.allocCounter + 1 }
      : ContainerState) n).2 = _
    rw [hres2]
  · intro hEq
    injection hEq with h1 h2 h3
    omega

/-- C9, witness: the theorem evaluated on the registered lazy class-kind
descriptor `dS`. -/
theorem c9_witness :
    ∃ v1 v2, (resolve stS "s").2 = .ok v1
      ∧ (resolve (resolve stS "s").1 "s").2 = .ok v2 ∧ v1 ≠ v2 :=
  c9_lazy_class_fresh fsUnit {} stS dS "s" 3 rfl rfl rfl rfl rfl rfl

/-- C10: constructing a container always overwrites the process-wide
tracked instance — whatever `GlobalState` held before, `getInstance`
afterwards returns the newly constructed container. -/
theorem c10_constructor_overwrites_current (g : GlobalState) (newId : Nat) :
    getInstance (constructContainer g newId) = some newId :=
  rfl

end Container
